import Mathlib

/-!
Verification of the sentiment-analysis pipeline in `src/main.py`.

Python strings are embedded as `List Char`; Python floats carrying class
probabilities are embedded as `ℚ`; a classifier call that may raise is
embedded as `Except String _` carrying the exception message.
-/

namespace SentimentApp

/-! ### Character classes, following the regexes in `preprocess_text` -/

/-- `[A-Z]` of the regex `[^A-Za-z]+` in `preprocess_text` (src/main.py:39). -/
def isUpperA (c : Char) : Bool := decide (65 ≤ c.toNat ∧ c.toNat ≤ 90)

/-- `[a-z]` of the regex `[^A-Za-z]+` in `preprocess_text` (src/main.py:39). -/
def isLowerA (c : Char) : Bool := decide (97 ≤ c.toNat ∧ c.toNat ≤ 122)

/-- `[A-Za-z]`: the characters kept by the first substitution. -/
def isAsciiLetter (c : Char) : Bool := isUpperA c || isLowerA c

/-- The ASCII characters matched by Python's `\s` (and stripped by
`str.strip()`): space, tab, newline, carriage return, vertical tab, form feed. -/
def isPyWs (c : Char) : Bool :=
  decide (c.toNat = 32 ∨ c.toNat = 9 ∨ c.toNat = 10 ∨ c.toNat = 13 ∨
          c.toNat = 11 ∨ c.toNat = 12)

/-- Python's `str.lower()` restricted to ASCII (the only characters that
survive the first substitution are ASCII letters and spaces). -/
def asciiLower (c : Char) : Char :=
  if isUpperA c then Char.ofNat (c.toNat + 32) else c

theorem toNat_charOfNat_valid (n : Nat) (h : n.isValidChar) :
    (Char.ofNat n).toNat = n := by
  simp [Char.ofNat, dif_pos h, Char.ofNatAux, Char.toNat, UInt32.toNat]

theorem char_eq_of_toNat_eq {c d : Char} (h : c.toNat = d.toNat) : c = d :=
  Char.eq_of_val_eq (UInt32.ext h)

theorem char_eq_space_of_toNat {c : Char} (h : c.toNat = 32) : c = ' ' :=
  char_eq_of_toNat_eq (by simpa using h)

theorem isLowerA_asciiLower_of_letter {c : Char} (h : isAsciiLetter c = true) :
    isLowerA (asciiLower c) = true := by
  by_cases hu : isUpperA c = true
  · have hb : 65 ≤ c.toNat ∧ c.toNat ≤ 90 := by
      simpa [isUpperA] using hu
    have hv : (c.toNat + 32).isValidChar := by
      left
      omega
    rw [asciiLower, if_pos hu, isLowerA, toNat_charOfNat_valid _ hv]
    simp only [decide_eq_true_eq]
    omega
  · have hb : isLowerA c = true := by
      have := h
      unfold isAsciiLetter at this
      rcases Bool.or_eq_true_iff.mp this with h' | h'
      · exact absurd h' hu
      · exact h'
    rw [asciiLower, if_neg hu]
    exact hb

theorem not_isPyWs_of_isLowerA {c : Char} (h : isLowerA c = true) :
    isPyWs c = false := by
  unfold isLowerA at h
  unfold isPyWs
  simp only [decide_eq_true_eq] at h
  simp only [decide_eq_false_iff_not]
  omega

theorem not_isPyWs_of_letter {c : Char} (h : isAsciiLetter c = true) :
    isPyWs c = false := by
  unfold isAsciiLetter isUpperA isLowerA at h
  unfold isPyWs
  simp only [Bool.or_eq_true, decide_eq_true_eq] at h
  simp only [decide_eq_false_iff_not]
  omega

theorem isPyWs_space : isPyWs ' ' = true := by decide

theorem asciiLower_eq_self_of_not_upper {c : Char} (h : isUpperA c = false) :
    asciiLower c = c := by
  unfold asciiLower
  simp [h]

/-! ### The preprocessing stages of `preprocess_text` (src/main.py:34-49) -/

/-- Worker for `re.sub('[^A-Za-z]+', ' ', text)`.  The Boolean state
records whether the previous character belonged to a (already replaced)
run of non-letter characters, so each maximal run contributes exactly one
space. -/
def subNonLettersAux : Bool → List Char → List Char
  | _, [] => []
  | inRun, c :: cs =>
    if isAsciiLetter c then c :: subNonLettersAux false cs
    else if inRun then subNonLettersAux true cs
    else ' ' :: subNonLettersAux true cs

/-- `re.sub('[^A-Za-z]+', ' ', text)`: replace each maximal run of
non-ASCII-letter characters with a single space. -/
def subNonLetters (l : List Char) : List Char :=
  subNonLettersAux false l

/-- Worker for `re.sub('\s+', ' ', text)`, with the same run-state idea. -/
def collapseWSAux : Bool → List Char → List Char
  | _, [] => []
  | inRun, c :: cs =>
    if isPyWs c then
      if inRun then collapseWSAux true cs
      else ' ' :: collapseWSAux true cs
    else c :: collapseWSAux false cs

/-- `re.sub('\s+', ' ', text)`: replace each maximal run of whitespace
with a single space. -/
def collapseWS (l : List Char) : List Char :=
  collapseWSAux false l

/-- Remove the trailing run of characters satisfying `p`. -/
def dropTrailWhile (p : Char → Bool) : List Char → List Char
  | [] => []
  | c :: cs =>
    let r := dropTrailWhile p cs
    if r.isEmpty && p c then [] else c :: r

/-- Python's `str.strip()`: remove leading and trailing whitespace. -/
def pyStrip (l : List Char) : List Char :=
  dropTrailWhile isPyWs (l.dropWhile isPyWs)

/-- `preprocess_text` (src/main.py:34-49): lowercase, keep letters only,
strip, collapse whitespace, then optional stopword removal followed by
optional stemming.  The two linguistic tools come from the loaded
`preprocessing_tools.pkl` bundle; a falsy/absent tool skips its stage. -/
def preprocess_text (text : List Char)
    (stopword_remover stemmer : Option (List Char → List Char)) : List Char :=
  let t1 := collapseWS (pyStrip ((subNonLetters text).map asciiLower))
  let t2 :=
    match stopword_remover with
    | some f => f t1
    | none => t1
  match stemmer with
  | some g => g t2
  | none => t2

/-- The pure normalization stage: `preprocess_text` with no linguistic tools. -/
def normalize (text : List Char) : List Char :=
  preprocess_text text none none

/-! ### Invariants of the normalization stage -/

/-- The invariant claimed for `NormalizedText`: only lowercase ASCII letters
and spaces, no leading or trailing whitespace, no two adjacent whitespace
characters (i.e. words are separated by single spaces).  This is the
`^[a-z]*( [a-z]+)*$`-or-empty shape of the spec. -/
def NormalizedInv (l : List Char) : Prop :=
  (∀ c ∈ l, isLowerA c = true ∨ c = ' ') ∧
  (∀ c, l.head? = some c → isPyWs c = false) ∧
  (∀ c, l.getLast? = some c → isPyWs c = false) ∧
  List.Chain' (fun a b => ¬(isPyWs a = true ∧ isPyWs b = true)) l

theorem mem_subNonLettersAux {c : Char} :
    ∀ (b : Bool) (l : List Char), c ∈ subNonLettersAux b l →
      isAsciiLetter c = true ∨ c = ' '
  | _, [], h => absurd h (by simp [subNonLettersAux])
  | b, a :: l, h => by
    unfold subNonLettersAux at h
    by_cases ha : isAsciiLetter a = true
    · rw [if_pos ha] at h
      rcases List.mem_cons.mp h with rfl | h'
      · exact Or.inl ha
      · exact mem_subNonLettersAux false l h'
    · rw [if_neg ha] at h
      cases b with
      | true =>
        simp only [if_pos] at h
        exact mem_subNonLettersAux true l h
      | false =>
        simp only [Bool.false_eq_true, if_neg] at h
        rcases List.mem_cons.mp h with rfl | h'
        · exact Or.inr rfl
        · exact mem_subNonLettersAux true l h'

theorem mem_collapseWSAux {c : Char} :
    ∀ (b : Bool) (l : List Char), c ∈ collapseWSAux b l → c ∈ l ∨ c = ' '
  | _, [], h => absurd h (by simp [collapseWSAux])
  | b, a :: l, h => by
    unfold collapseWSAux at h
    by_cases ha : isPyWs a = true
    · rw [if_pos ha] at h
      cases b with
      | true =>
        simp only [if_pos] at h
        rcases mem_collapseWSAux true l h with h' | h'
        · exact Or.inl (List.mem_cons_of_mem _ h')
        · exact Or.inr h'
      | false =>
        simp only [Bool.false_eq_true, if_neg] at h
        rcases List.mem_cons.mp h with rfl | h'
        · exact Or.inr rfl
        · rcases mem_collapseWSAux true l h' with h'' | h''
          · exact Or.inl (List.mem_cons_of_mem _ h'')
          · exact Or.inr h''
    · rw [if_neg ha] at h
      rcases List.mem_cons.mp h with rfl | h'
      · exact Or.inl (List.mem_cons_self _ _)
      · rcases mem_collapseWSAux false l h' with h'' | h''
        · exact Or.inl (List.mem_cons_of_mem _ h'')
        · exact Or.inr h''

theorem mem_dropTrailWhile {c : Char} {p : Char → Bool} :
    ∀ l : List Char, c ∈ dropTrailWhile p l → c ∈ l
  | [], h => absurd h (by simp [dropTrailWhile])
  | a :: l, h => by
    unfold dropTrailWhile at h
    by_cases hc : ((dropTrailWhile p l).isEmpty && p a) = true
    · rw [if_pos hc] at h
      exact absurd h (List.not_mem_nil c)
    · rw [if_neg hc] at h
      rcases List.mem_cons.mp h with rfl | h'
      · exact List.mem_cons_self _ _
      · exact List.mem_cons_of_mem _ (mem_dropTrailWhile l h')

/-- The head of `collapseWSAux true l` is never whitespace: a whitespace
run in progress contributes nothing further. -/
theorem head_collapseWSAux_true {c : Char} :
    ∀ l : List Char, (collapseWSAux true l).head? = some c → isPyWs c = false
  | [], h => by simp [collapseWSAux] at h
  | a :: l, h => by
    unfold collapseWSAux at h
    by_cases ha : isPyWs a = true
    · rw [if_pos ha, if_pos rfl] at h
      exact head_collapseWSAux_true l h
    · rw [if_neg ha] at h
      simp only [List.head?_cons, Option.some.injEq] at h
      subst h
      exact Bool.eq_false_iff.mpr ha

theorem chain'_collapseWSAux :
    ∀ (b : Bool) (l : List Char),
      List.Chain' (fun a b => ¬(isPyWs a = true ∧ isPyWs b = true))
        (collapseWSAux b l)
  | _, [] => by simp [collapseWSAux]
  | b, a :: l => by
    unfold collapseWSAux
    by_cases ha : isPyWs a = true
    · rw [if_pos ha]
      cases b with
      | true =>
        simp only [if_pos]
        exact chain'_collapseWSAux true l
      | false =>
        simp only [Bool.false_eq_true, if_neg]
        refine List.chain'_cons'.mpr ⟨?_, chain'_collapseWSAux true l⟩
        intro y hy
        intro hcon
        exact absurd (head_collapseWSAux_true l ((Option.mem_def).mp hy)) (by simp [hcon.2])
    · rw [if_neg ha]
      refine List.chain'_cons'.mpr ⟨?_, chain'_collapseWSAux false l⟩
      intro y _ hcon
      exact ha hcon.1

theorem getLast?_cons_ne_nil {α : Type} {a : α} {l : List α} (h : l ≠ []) :
    (a :: l).getLast? = l.getLast? := by
  cases l with
  | nil => exact absurd rfl h
  | cons b t => simp

theorem collapseWSAux_false_ne_nil {a : Char} {l : List Char} :
    collapseWSAux false (a :: l) ≠ [] := by
  unfold collapseWSAux
  by_cases ha : isPyWs a = true
  · rw [if_pos ha]
    simp
  · rw [if_neg ha]
    simp

theorem all_ws_of_collapseWSAux_true_nil :
    ∀ l : List Char, collapseWSAux true l = [] → ∀ c ∈ l, isPyWs c = true
  | [], _, c, hc => absurd hc (List.not_mem_nil c)
  | a :: l, h, c, hc => by
    unfold collapseWSAux at h
    by_cases ha : isPyWs a = true
    · rw [if_pos ha, if_pos rfl] at h
      rcases List.mem_cons.mp hc with rfl | hc'
      · exact ha
      · exact all_ws_of_collapseWSAux_true_nil l h c hc'
    · rw [if_neg ha] at h
      exact absurd h (by simp)

/-- If the last character of `l` is not whitespace then neither is the last
character of its whitespace-collapse. -/
theorem getLast_collapseWSAux {c : Char} :
    ∀ (b : Bool) (l : List Char),
      (∀ d, l.getLast? = some d → isPyWs d = false) →
      (collapseWSAux b l).getLast? = some c → isPyWs c = false
  | _, [], _, h => by simp [collapseWSAux] at h
  | b, a :: l, hl, h => by
    unfold collapseWSAux at h
    by_cases ha : isPyWs a = true
    · cases l with
      | nil =>
        exact absurd (hl a (by simp)) (by simp [ha])
      | cons x t =>
        have hl' : ∀ d, (x :: t).getLast? = some d → isPyWs d = false := by
          intro d hd
          exact hl d (by rw [getLast?_cons_ne_nil (by simp), hd])
        rw [if_pos ha] at h
        cases b with
        | true =>
          rw [if_pos rfl] at h
          exact getLast_collapseWSAux true (x :: t) hl' h
        | false =>
          rw [if_neg Bool.false_ne_true] at h
          have hne : collapseWSAux true (x :: t) ≠ [] := by
            intro hnil
            have hmem := List.getLast_mem_getLast? (l := x :: t) (by simp)
            have hws := all_ws_of_collapseWSAux_true_nil (x :: t) hnil _
              (List.mem_of_mem_getLast? hmem)
            have hnws := hl' _ (List.getLast?_eq_getLast _ (by simp))
            rw [hws] at hnws
            exact absurd hnws (by simp)
          rw [getLast?_cons_ne_nil hne] at h
          exact getLast_collapseWSAux true (x :: t) hl' h
    · rw [if_neg ha] at h
      cases l with
      | nil =>
        simp only [collapseWSAux, List.getLast?_singleton, Option.some.injEq] at h
        subst h
        exact Bool.eq_false_iff.mpr ha
      | cons x t =>
        have hl' : ∀ d, (x :: t).getLast? = some d → isPyWs d = false := by
          intro d hd
          exact hl d (by rw [getLast?_cons_ne_nil (by simp), hd])
        rw [getLast?_cons_ne_nil collapseWSAux_false_ne_nil] at h
        exact getLast_collapseWSAux false (x :: t) hl' h

theorem head_dropWhile {p : Char → Bool} {c : Char} :
    ∀ l : List Char, (l.dropWhile p).head? = some c → p c = false
  | [], h => by simp at h
  | a :: l, h => by
    by_cases ha : p a = true
    · rw [List.dropWhile_cons_of_pos ha] at h
      exact head_dropWhile l h
    · rw [List.dropWhile_cons_of_neg (by simp [ha])] at h
      simp only [List.head?_cons, Option.some.injEq] at h
      subst h
      exact Bool.eq_false_iff.mpr ha

theorem head_dropTrailWhile {p : Char → Bool} {c : Char} {l : List Char}
    (h : (dropTrailWhile p l).head? = some c) : l.head? = some c := by
  cases l with
  | nil => simp [dropTrailWhile] at h
  | cons a t =>
    unfold dropTrailWhile at h
    by_cases hc : ((dropTrailWhile p t).isEmpty && p a) = true
    · rw [if_pos hc] at h
      simp at h
    · rw [if_neg hc] at h
      simpa using h

theorem getLast_dropTrailWhile {p : Char → Bool} {c : Char} :
    ∀ l : List Char, (dropTrailWhile p l).getLast? = some c → p c = false
  | [], h => by simp [dropTrailWhile] at h
  | a :: l, h => by
    unfold dropTrailWhile at h
    by_cases hc : ((dropTrailWhile p l).isEmpty && p a) = true
    · rw [if_pos hc] at h
      simp at h
    · rw [if_neg hc] at h
      rcases hr : dropTrailWhile p l with _ | ⟨x, t⟩
      · rw [hr] at h
        simp only [List.getLast?_singleton, Option.some.injEq] at h
        subst h
        rw [hr] at hc
        simpa using hc
      · rw [hr] at h
        rw [getLast?_cons_ne_nil (by simp)] at h
        rw [← hr] at h
        exact getLast_dropTrailWhile l h

theorem head_collapseWSAux_false {c : Char} {l : List Char}
    (hl : ∀ d, l.head? = some d → isPyWs d = false)
    (h : (collapseWSAux false l).head? = some c) : isPyWs c = false := by
  cases l with
  | nil => simp [collapseWSAux] at h
  | cons a t =>
    have ha : isPyWs a = false := hl a (by simp)
    unfold collapseWSAux at h
    rw [if_neg (by simp [ha])] at h
    simp only [List.head?_cons, Option.some.injEq] at h
    subst h
    exact ha

/-- Every result of the full normalization stage satisfies the
`NormalizedText` invariant. -/
theorem normalizedInv_normalize (l : List Char) : NormalizedInv (normalize l) := by
  have hnorm : normalize l =
      collapseWS (pyStrip ((subNonLetters l).map asciiLower)) := rfl
  set m1 := (subNonLetters l).map asciiLower with hm1
  set m2 := pyStrip m1 with hm2
  have hchar1 : ∀ c ∈ m1, isLowerA c = true ∨ c = ' ' := by
    intro c hc
    rcases List.mem_map.mp hc with ⟨d, hd, rfl⟩
    rcases mem_subNonLettersAux false l hd with hlet | rfl
    · exact Or.inl (isLowerA_asciiLower_of_letter hlet)
    · right
      exact asciiLower_eq_self_of_not_upper (by decide)
  have hchar2 : ∀ c ∈ m2, isLowerA c = true ∨ c = ' ' := by
    intro c hc
    exact hchar1 c (List.dropWhile_subset _ (mem_dropTrailWhile _ hc))
  have hhead2 : ∀ c, m2.head? = some c → isPyWs c = false := by
    intro c hc
    exact head_dropWhile _ (head_dropTrailWhile hc)
  have hlast2 : ∀ c, m2.getLast? = some c → isPyWs c = false := by
    intro c hc
    exact getLast_dropTrailWhile _ hc
  refine ⟨?_, ?_, ?_, ?_⟩
  · intro c hc
    rw [hnorm] at hc
    rcases mem_collapseWSAux false m2 hc with h' | rfl
    · exact hchar2 c h'
    · exact Or.inr rfl
  · intro c hc
    rw [hnorm] at hc
    exact head_collapseWSAux_false hhead2 hc
  · intro c hc
    rw [hnorm] at hc
    exact getLast_collapseWSAux false m2 hlast2 hc
  · rw [hnorm]
    exact chain'_collapseWSAux false m2

/-! ### Normalization is a fixed point on already-normalized text -/

theorem subNonLettersAux_eq_self :
    ∀ (b : Bool) (l : List Char),
      (∀ c ∈ l, isLowerA c = true ∨ c = ' ') →
      List.Chain' (fun a b => ¬(isPyWs a = true ∧ isPyWs b = true)) l →
      (b = true → ∀ c, l.head? = some c → isPyWs c = false) →
      subNonLettersAux b l = l
  | _, [], _, _, _ => rfl
  | b, a :: l, hchar, hchain, hside => by
    have hl := List.chain'_cons'.mp hchain
    rcases hchar a (List.mem_cons_self _ _) with hla | rfl
    · have hlet : isAsciiLetter a = true := by
        unfold isAsciiLetter
        rw [hla]
        simp
      unfold subNonLettersAux
      rw [if_pos hlet]
      rw [subNonLettersAux_eq_self false l
        (fun c hc => hchar c (List.mem_cons_of_mem _ hc)) hl.2 (by simp)]
    · cases b with
      | true =>
        exact absurd (hside rfl ' ' (by simp)) (by simp [isPyWs_space])
      | false =>
        unfold subNonLettersAux
        rw [if_neg (by decide), if_neg Bool.false_ne_true]
        rw [subNonLettersAux_eq_self true l
          (fun c hc => hchar c (List.mem_cons_of_mem _ hc)) hl.2 ?_]
        intro _ c hc
        cases hh : l.head? with
        | none => simp [hh] at hc
        | some d =>
          rw [hh] at hc
          cases hc
          have := hl.1 c (Option.mem_def.mpr hh)
          by_cases hws : isPyWs c = true
          · exact absurd ⟨isPyWs_space, hws⟩ this
          · exact Bool.eq_false_iff.mpr hws

theorem collapseWSAux_eq_self :
    ∀ (b : Bool) (l : List Char),
      (∀ c ∈ l, isLowerA c = true ∨ c = ' ') →
      List.Chain' (fun a b => ¬(isPyWs a = true ∧ isPyWs b = true)) l →
      (b = true → ∀ c, l.head? = some c → isPyWs c = false) →
      collapseWSAux b l = l
  | _, [], _, _, _ => rfl
  | b, a :: l, hchar, hchain, hside => by
    have hl := List.chain'_cons'.mp hchain
    by_cases hws : isPyWs a = true
    · have ha : a = ' ' := by
        rcases hchar a (List.mem_cons_self _ _) with hla | rfl
        · exact absurd hws (by simp [not_isPyWs_of_isLowerA hla])
        · rfl
      cases b with
      | true =>
        exact absurd (hside rfl a (by simp)) (by simp [hws])
      | false =>
        unfold collapseWSAux
        rw [if_pos hws, if_neg Bool.false_ne_true, ha]
        rw [collapseWSAux_eq_self true l
          (fun c hc => hchar c (List.mem_cons_of_mem _ hc)) hl.2 ?_]
        intro _ c hc
        cases hh : l.head? with
        | none => simp [hh] at hc
        | some d =>
          rw [hh] at hc
          cases hc
          have := hl.1 c (Option.mem_def.mpr hh)
          by_cases hws' : isPyWs c = true
          · exact absurd ⟨hws, hws'⟩ this
          · exact Bool.eq_false_iff.mpr hws'
    · unfold collapseWSAux
      rw [if_neg hws]
      rw [collapseWSAux_eq_self false l
        (fun c hc => hchar c (List.mem_cons_of_mem _ hc)) hl.2 (by simp)]

theorem map_asciiLower_eq_self :
    ∀ l : List Char, (∀ c ∈ l, isLowerA c = true ∨ c = ' ') →
      l.map asciiLower = l
  | [], _ => rfl
  | a :: l, h => by
    have ha : isUpperA a = false := by
      rcases h a (List.mem_cons_self _ _) with hla | rfl
      · unfold isLowerA at hla
        unfold isUpperA
        simp only [decide_eq_true_eq] at hla
        simp only [decide_eq_false_iff_not]
        omega
      · decide
    simp only [List.map_cons, asciiLower_eq_self_of_not_upper ha]
    rw [map_asciiLower_eq_self l (fun c hc => h c (List.mem_cons_of_mem _ hc))]

theorem dropWhile_eq_self_of_head {p : Char → Bool} {l : List Char}
    (h : ∀ c, l.head? = some c → p c = false) : l.dropWhile p = l := by
  cases l with
  | nil => rfl
  | cons a t =>
    exact List.dropWhile_cons_of_neg (by simp [h a (by simp)])

theorem dropTrailWhile_eq_self_of_getLast {p : Char → Bool} :
    ∀ l : List Char, (∀ c, l.getLast? = some c → p c = false) →
      dropTrailWhile p l = l
  | [], _ => rfl
  | a :: l, h => by
    unfold dropTrailWhile
    cases l with
    | nil =>
      have := h a (by simp)
      simp [dropTrailWhile, this]
    | cons x t =>
      have hrec : dropTrailWhile p (x :: t) = x :: t := by
        apply dropTrailWhile_eq_self_of_getLast
        intro c hc
        exact h c (by rw [getLast?_cons_ne_nil (by simp), hc])
      rw [hrec]
      simp

/-- Normalization does not change text that already satisfies the
`NormalizedText` invariant. -/
theorem normalize_eq_self_of_inv {l : List Char} (h : NormalizedInv l) :
    normalize l = l := by
  obtain ⟨hchar, hhead, hlast, hchain⟩ := h
  show collapseWS (pyStrip ((subNonLetters l).map asciiLower)) = l
  rw [subNonLetters, subNonLettersAux_eq_self false l hchar hchain (by simp),
    map_asciiLower_eq_self l hchar, pyStrip, dropWhile_eq_self_of_head hhead,
    dropTrailWhile_eq_self_of_getLast l hlast, collapseWS,
    collapseWSAux_eq_self false l hchar hchain (by simp)]

/-- `normalize` is idempotent on every input. -/
theorem normalize_idem (l : List Char) : normalize (normalize l) = normalize l :=
  normalize_eq_self_of_inv (normalizedInv_normalize l)

/-! ### Confidence badge (`get_confidence_badge`, src/main.py:51-60) -/

/-- `get_confidence_badge` (src/main.py:51-60): visual label and Streamlit
alert kind from the confidence percentage. -/
def get_confidence_badge (prob : ℚ) : String × String :=
  if prob > 80 then ("🟢 Tinggi", "success")
  else if prob > 60 then ("🟡 Sedang", "warning")
  else ("🔴 Rendah", "error")

/-- The spec's `ConfidenceBadge` enum. -/
inductive ConfidenceBadge where
  | High
  | Medium
  | Low
  deriving DecidableEq, Repr

/-- Modelled from the spec: `classify(probabilityPercent) -> ConfidenceBadge`
with the threshold table `>80 → High`, `>60 → Medium`, else `Low`. -/
def classifySpec (p : ℚ) : ConfidenceBadge :=
  if p > 80 then .High else if p > 60 then .Medium else .Low

/-- How each abstract badge is rendered by the code. -/
def badgeRender : ConfidenceBadge → String × String
  | .High => ("🟢 Tinggi", "success")
  | .Medium => ("🟡 Sedang", "warning")
  | .Low => ("🔴 Rendah", "error")

/-! ### The prediction block (src/main.py:114-192) -/

/-- A Python label value as compared by `pred == "positive"`: either a
string or a numeric label (a number never equals a string in Python). -/
inductive PyLabel where
  | str (s : String)
  | num (n : Int)
  deriving DecidableEq, Repr

/-- Python's `pred == "positive"` (src/main.py:144, 172, 179). -/
def labelIsPositive : PyLabel → Bool
  | .str s => s == "positive"
  | .num _ => false

/-- A pre-fitted classifier artifact: `predict` and `predict_proba` over a
feature vector, each possibly raising (modelled by `Except` carrying the
exception message).  The probability pair is `[p_negative, p_positive]`. -/
structure PyClassifier where
  predict : List ℚ → Except String PyLabel
  predict_proba : List ℚ → Except String (ℚ × ℚ)

/-- The `preprocessing_tools.pkl` bundle: `tools['stopword']` and
`tools['stemmer']`, each possibly falsy/absent. -/
structure Tools where
  stopword : Option (List Char → List Char)
  stemmer : Option (List Char → List Char)

/-- The loaded model bundle (src/main.py:21-26). -/
structure Models where
  model_bnb : PyClassifier
  model_svm : PyClassifier
  model_ensemble : PyClassifier
  vectorizer : List Char → Except String (List ℚ)
  tools : Tools

/-- Call-count instrumentation: how often each artifact method ran. -/
structure Counts where
  transform : Nat
  ensPredict : Nat
  ensProba : Nat
  bnbPredict : Nat
  bnbProba : Nat
  svmPredict : Nat
  svmProba : Nat
  deriving DecidableEq, Repr

def Counts.zero : Counts := ⟨0, 0, 0, 0, 0, 0, 0⟩

/-- One rendered Streamlit element, with the payloads the claims are about. -/
inductive UIElem where
  | warning (msg : String)
  | error (msg : String)
  | success (msg : String)
  | info (msg : String) (val : ℚ)
  | write (msg : String)
  | markdown (msg : String)
  | divider
  | subheader (msg : String)
  | caption (msg : String)
  | progress (val : ℚ) (msg : String)
  | textArea (content : List Char)
  deriving DecidableEq, Repr

/-- The `st.error` emitted by the `except` handler (src/main.py:191-192). -/
def predErrorElem (e : String) : UIElem :=
  UIElem.error ("Terjadi kesalahan saat proses prediksi: " ++ e)

/-- The main sentiment alert (src/main.py:144-147). -/
def ensembleSentimentElem (pred : PyLabel) : UIElem :=
  if labelIsPositive pred then UIElem.success "### ✅ Sentimen: POSITIF"
  else UIElem.error "### ❌ Sentimen: NEGATIF"

/-- A base-model sentiment alert in the comparison view
(src/main.py:172-182). -/
def baseSentimentElem (pred : PyLabel) : UIElem :=
  if labelIsPositive pred then UIElem.success "Positif"
  else UIElem.error "Negatif"

/-- Python's `max` on the two entries of the probability array. -/
def maxQ (a b : ℚ) : ℚ := if a < b then b else a

theorem maxQ_eq_max (a b : ℚ) : maxQ a b = max a b := by
  unfold maxQ
  by_cases h : a < b
  · rw [if_pos h, max_eq_right h.le]
  · rw [if_neg h, max_eq_left (le_of_not_lt h)]

/-- The main result section (src/main.py:133-158): divider, subheader, the
sentiment alert, the confidence badge applied to `max(prob_ensemble) * 100`,
and the two probability bars `[p1 = positive, p0 = negative]`. -/
def ensembleElems (pred : PyLabel) (prob : ℚ × ℚ) : List UIElem :=
  let max_prob := maxQ prob.1 prob.2 * 100
  let conf := get_confidence_badge max_prob
  [UIElem.divider,
   UIElem.subheader "🎯 Hasil Analisis (Ensemble)",
   ensembleSentimentElem pred,
   UIElem.info ("**Tingkat Keyakinan:**\n\n" ++ conf.1) max_prob,
   UIElem.write "**📊 Probabilitas Detail:**",
   UIElem.progress prob.2 "Positif",
   UIElem.progress prob.1 "Negatif"]

/-- The comparison section (src/main.py:160-182): the two base-model
labels, with no probability output. -/
def comparisonElems (pred_bnb pred_svm : PyLabel) : List UIElem :=
  [UIElem.markdown "---",
   UIElem.markdown "#### 🤖 Perbandingan Model Individu",
   UIElem.caption "Bernoulli Naive Bayes",
   baseSentimentElem pred_bnb,
   UIElem.caption "Linear SVM",
   baseSentimentElem pred_svm]

/-- The preprocessing-details section (src/main.py:184-189). -/
def detailElems (input_text processed_text : List Char) : List UIElem :=
  [UIElem.markdown "---",
   UIElem.markdown "#### 🔬 Detail Preprocessing",
   UIElem.textArea input_text,
   UIElem.textArea processed_text]

/-- The `try` block of the prediction logic (src/main.py:120-192):
preprocessing, vectorization, ensemble prediction, rendering, then the
optional comparison and details sections.  An exception anywhere leaves the
elements already rendered in place and appends the generic error message of
the `except` handler; execution stops at the first exception. -/
def runPredictBlock (m : Models) (input_text : List Char)
    (show_comparison show_details : Bool) : List UIElem × Counts :=
  let processed_text := preprocess_text input_text m.tools.stopword m.tools.stemmer
  match m.vectorizer processed_text with
  | .error e => ([predErrorElem e], ⟨1, 0, 0, 0, 0, 0, 0⟩)
  | .ok vec =>
    match m.model_ensemble.predict vec with
    | .error e => ([predErrorElem e], ⟨1, 1, 0, 0, 0, 0, 0⟩)
    | .ok pred_ensemble =>
      match m.model_ensemble.predict_proba vec with
      | .error e => ([predErrorElem e], ⟨1, 1, 1, 0, 0, 0, 0⟩)
      | .ok prob_ensemble =>
        let ensElems := ensembleElems pred_ensemble prob_ensemble
        if show_comparison then
          match m.model_bnb.predict vec with
          | .error e => (ensElems ++ [predErrorElem e], ⟨1, 1, 1, 1, 0, 0, 0⟩)
          | .ok pred_bnb =>
            match m.model_svm.predict vec with
            | .error e => (ensElems ++ [predErrorElem e], ⟨1, 1, 1, 1, 0, 1, 0⟩)
            | .ok pred_svm =>
              let elems := ensElems ++ comparisonElems pred_bnb pred_svm
              if show_details then
                (elems ++ detailElems input_text processed_text,
                 ⟨1, 1, 1, 1, 0, 1, 0⟩)
              else (elems, ⟨1, 1, 1, 1, 0, 1, 0⟩)
        else
          if show_details then
            (ensElems ++ detailElems input_text processed_text,
             ⟨1, 1, 1, 0, 0, 0, 0⟩)
          else (ensElems, ⟨1, 1, 1, 0, 0, 0, 0⟩)

/-- The prediction logic behind the button (src/main.py:114-192): nothing
happens unless the button was clicked; blank input (after `strip`) only
produces the usage warning; otherwise the `try` block runs. -/
def runApp (m : Models) (input_text : List Char)
    (predict_btn show_comparison show_details : Bool) : List UIElem × Counts :=
  if predict_btn then
    if pyStrip input_text = [] then
      ([UIElem.warning "⚠️ Harap masukkan teks ulasan terlebih dahulu."], Counts.zero)
    else runPredictBlock m input_text show_comparison show_details
  else ([], Counts.zero)

/-- The page-level guard (src/main.py:63-75): the five artifacts are loaded
(each `none` when its load failed); if any is missing the app only shows
the unavailable warning and the prediction UI never runs. -/
def appMain (bnb svm ens : Option PyClassifier)
    (vec : Option (List Char → Except String (List ℚ))) (tl : Option Tools)
    (input_text : List Char)
    (predict_btn show_comparison show_details : Bool) : List UIElem × Counts :=
  match bnb, svm, ens, vec, tl with
  | some b, some s, some e, some v, some t =>
    runApp ⟨b, s, e, v, t⟩ input_text predict_btn show_comparison show_details
  | _, _, _, _, _ =>
    ([UIElem.warning "⚠️ Aplikasi tidak dapat berjalan karena file model belum lengkap."],
     Counts.zero)

/-! ### Concrete artifacts used as witnesses -/

/-- A classifier that succeeds with a fixed label and probability pair. -/
def okClassifier (lbl : PyLabel) (pr : ℚ × ℚ) : PyClassifier :=
  ⟨fun _ => .ok lbl, fun _ => .ok pr⟩

/-- A classifier whose `predict`/`predict_proba` raise with a fixed message. -/
def failClassifier (msg : String) : PyClassifier :=
  ⟨fun _ => .error msg, fun _ => .error msg⟩

def demoVectorizer : List Char → Except String (List ℚ) :=
  fun _ => .ok [1]

def demoModels : Models :=
  ⟨okClassifier (.str "positive") (mkRat 1 2, mkRat 1 2),
   okClassifier (.str "negative") (mkRat 1 2, mkRat 1 2),
   okClassifier (.str "positive") (mkRat 3 10, mkRat 7 10),
   demoVectorizer,
   ⟨none, none⟩⟩

def demoInput : List Char := ['b', 'a', 'g', 'u', 's']

def modelsFailBnb : Models := { demoModels with model_bnb := failClassifier "boom" }

def modelsFailSvm : Models := { demoModels with model_svm := failClassifier "boom" }

def modelsFailEns : Models :=
  { demoModels with model_ensemble := failClassifier "boom" }

theorem pyStrip_eq_nil_of_all_ws {l : List Char}
    (h : ∀ c ∈ l, isPyWs c = true) : pyStrip l = [] := by
  unfold pyStrip
  have hdw : l.dropWhile isPyWs = [] := by
    induction l with
    | nil => rfl
    | cons a t ih =>
      rw [List.dropWhile_cons_of_pos (h a (List.mem_cons_self _ _))]
      exact ih fun c hc => h c (List.mem_cons_of_mem _ hc)
  rw [hdw]
  rfl

theorem get_confidence_badge_eq_badgeRender (p : ℚ) :
    get_confidence_badge p = badgeRender (classifySpec p) := by
  unfold get_confidence_badge classifySpec badgeRender
  split_ifs <;> rfl

theorem data_string_append (s t : String) : (s ++ t).data = s.data ++ t.data := rfl

theorem predError_msg_head (e : String) :
    ("Terjadi kesalahan saat proses prediksi: " ++ e).data.head? = some 'T' := by
  rw [data_string_append]
  rfl

/-! ### The claims -/

/-- C2: the confidence classifier is deterministic and total on ℚ (the
embedding of the Python floats), maps `p` to High exactly when `p > 80`, to
Medium exactly when `60 < p ≤ 80`, to Low exactly when `p ≤ 60`; the code's
`get_confidence_badge` refines this classifier; the five sample values
behave as claimed; and the badge shown for a prediction is the classifier
applied to `max(probability-pair) * 100`. -/
theorem claim_C2 : ∀ p : ℚ,
    (classifySpec p = ConfidenceBadge.High ↔ 80 < p) ∧
    (classifySpec p = ConfidenceBadge.Medium ↔ (60 < p ∧ p ≤ 80)) ∧
    (classifySpec p = ConfidenceBadge.Low ↔ p ≤ 60) ∧
    get_confidence_badge p = badgeRender (classifySpec p) ∧
    (classifySpec 81 = ConfidenceBadge.High ∧
     classifySpec 80 = ConfidenceBadge.Medium ∧
     classifySpec 60 = ConfidenceBadge.Low ∧
     classifySpec 100 = ConfidenceBadge.High ∧
     classifySpec 0 = ConfidenceBadge.Low) ∧
    (∀ (pred : PyLabel) (pr : ℚ × ℚ),
      UIElem.info ("**Tingkat Keyakinan:**\n\n" ++
          (badgeRender (classifySpec (max pr.1 pr.2 * 100))).1)
        (max pr.1 pr.2 * 100) ∈ ensembleElems pred pr) := by
  intro p
  refine ⟨?_, ?_, ?_, get_confidence_badge_eq_badgeRender p, ?_, ?_⟩
  · unfold classifySpec
    split_ifs with h1 h2 <;> simp [h1]
  · unfold classifySpec
    split_ifs with h1 h2
    · simp only [reduceCtorEq, false_iff, not_and]
      intro _ hcon
      exact absurd h1 (not_lt_of_le hcon)
    · simp only [true_iff]
      exact ⟨h2, le_of_not_lt h1⟩
    · simp only [reduceCtorEq, false_iff, not_and]
      intro hcon
      exact absurd hcon h2
  · unfold classifySpec
    split_ifs with h1 h2
    · simp only [reduceCtorEq, false_iff, not_le]
      linarith
    · simp only [reduceCtorEq, false_iff, not_le]
      exact h2
    · simp only [true_iff]
      exact le_of_not_lt h2
  · refine ⟨by decide, by decide, by decide, by decide, by decide⟩
  · intro pred pr
    rw [← maxQ_eq_max, ← get_confidence_badge_eq_badgeRender]
    unfold ensembleElems
    simp

/-- C3: with only-whitespace (or empty) raw input, clicking the analyse
button yields exactly the usage warning (`st.warning`, a different element
kind than the `st.error` used for faults), and no artifact method runs:
all call counts are zero. -/
theorem claim_C3 :
    ∀ (m : Models) (input_text : List Char) (sc sd : Bool),
      (∀ c ∈ input_text, isPyWs c = true) →
      runApp m input_text true sc sd =
        ([UIElem.warning "⚠️ Harap masukkan teks ulasan terlebih dahulu."],
         Counts.zero) ∧
      (runApp m input_text true sc sd).2.transform = 0 ∧
      (runApp m input_text true sc sd).2.ensPredict = 0 ∧
      (runApp m input_text true sc sd).2.ensProba = 0 ∧
      (runApp m input_text true sc sd).2.bnbPredict = 0 ∧
      (runApp m input_text true sc sd).2.bnbProba = 0 ∧
      (runApp m input_text true sc sd).2.svmPredict = 0 ∧
      (runApp m input_text true sc sd).2.svmProba = 0 ∧
      (∀ s e : String, UIElem.warning s ≠ UIElem.error e) := by
  intro m input_text sc sd h
  have heq : runApp m input_text true sc sd =
      ([UIElem.warning "⚠️ Harap masukkan teks ulasan terlebih dahulu."],
       Counts.zero) := by
    unfold runApp
    rw [if_pos rfl, if_pos (pyStrip_eq_nil_of_all_ws h)]
  rw [heq]
  refine ⟨rfl, rfl, rfl, rfl, rfl, rfl, rfl, rfl, ?_⟩
  intro s e hc
  exact UIElem.noConfusion hc

/-- Witness for C3 at the concrete whitespace input `"  "`. -/
theorem claim_C3_witness :
    (∀ c ∈ [' ', ' '], isPyWs c = true) ∧
    runApp demoModels [' ', ' '] true true false =
      ([UIElem.warning "⚠️ Harap masukkan teks ulasan terlebih dahulu."],
       Counts.zero) :=
  ⟨by decide, (claim_C3 demoModels [' ', ' '] true false (by decide)).1⟩

theorem runPredictBlock_no_comparison
    (mb ms mb' ms' : PyClassifier) (me : PyClassifier)
    (mv : List Char → Except String (List ℚ)) (mt : Tools)
    (input_text : List Char) (sd : Bool) :
    runPredictBlock ⟨mb', ms', me, mv, mt⟩ input_text false sd =
      runPredictBlock ⟨mb, ms, me, mv, mt⟩ input_text false sd ∧
    (runPredictBlock ⟨mb, ms, me, mv, mt⟩ input_text false sd).2.bnbPredict = 0 ∧
    (runPredictBlock ⟨mb, ms, me, mv, mt⟩ input_text false sd).2.bnbProba = 0 ∧
    (runPredictBlock ⟨mb, ms, me, mv, mt⟩ input_text false sd).2.svmPredict = 0 ∧
    (runPredictBlock ⟨mb, ms, me, mv, mt⟩ input_text false sd).2.svmProba = 0 := by
  simp only [runPredictBlock]
  cases hv : mv (preprocess_text input_text mt.stopword mt.stemmer) with
  | error e => exact ⟨rfl, rfl, rfl, rfl, rfl⟩
  | ok vec =>
    dsimp only
    cases he : me.predict vec with
    | error e => exact ⟨rfl, rfl, rfl, rfl, rfl⟩
    | ok le =>
      dsimp only
      cases hp : me.predict_proba vec with
      | error e => exact ⟨rfl, rfl, rfl, rfl, rfl⟩
      | ok pr =>
        cases sd <;> exact ⟨rfl, rfl, rfl, rfl, rfl⟩

/-- C4: with the comparison checkbox off, the run is entirely independent
of the two base classifiers (replacing both by any other capabilities gives
the identical rendered output and counts), and the base classifiers'
`predict`/`predict_proba` are never invoked. -/
theorem claim_C4 :
    ∀ (m : Models) (b s : PyClassifier) (input_text : List Char) (btn sd : Bool),
      runApp { m with model_bnb := b, model_svm := s } input_text btn false sd =
        runApp m input_text btn false sd ∧
      (runApp m input_text btn false sd).2.bnbPredict = 0 ∧
      (runApp m input_text btn false sd).2.bnbProba = 0 ∧
      (runApp m input_text btn false sd).2.svmPredict = 0 ∧
      (runApp m input_text btn false sd).2.svmProba = 0 := by
  intro m b s input_text btn sd
  obtain ⟨mb, ms, me, mv, mt⟩ := m
  cases btn with
  | false => exact ⟨rfl, rfl, rfl, rfl, rfl⟩
  | true =>
    by_cases hstrip : pyStrip input_text = []
    · have hl : ∀ bb ss : PyClassifier,
          runApp ⟨bb, ss, me, mv, mt⟩ input_text true false sd =
            ([UIElem.warning "⚠️ Harap masukkan teks ulasan terlebih dahulu."],
             Counts.zero) := by
        intro bb ss
        unfold runApp
        rw [if_pos rfl, if_pos hstrip]
      rw [hl mb ms, hl b s]
      exact ⟨rfl, rfl, rfl, rfl, rfl⟩
    · have hl : ∀ bb ss : PyClassifier,
          runApp ⟨bb, ss, me, mv, mt⟩ input_text true false sd =
            runPredictBlock ⟨bb, ss, me, mv, mt⟩ input_text false sd := by
        intro bb ss
        unfold runApp
        rw [if_pos rfl, if_neg hstrip]
      rw [hl mb ms, hl b s]
      exact runPredictBlock_no_comparison mb ms b s me mv mt input_text sd

/-- C5: the reducer applies stopword removal (if supplied) strictly before
stemming (if supplied); an absent tool's stage is skipped silently and the
pipeline still produces a result in every combination. -/
theorem claim_C5 :
    ∀ (text : List Char) (sw sm : List Char → List Char),
      preprocess_text text (some sw) (some sm) = sm (sw (normalize text)) ∧
      preprocess_text text none (some sm) = sm (normalize text) ∧
      preprocess_text text (some sw) none = sw (normalize text) ∧
      preprocess_text text none none = normalize text :=
  fun _ _ _ => ⟨rfl, rfl, rfl, rfl⟩

/-- C6: for every input string, the normalization stage satisfies the
`NormalizedText` invariant: only lowercase ASCII letters and single spaces,
no leading or trailing whitespace (the `^[a-z]*( [a-z]+)*$`-or-empty
shape). -/
theorem claim_C6 : ∀ text : List Char, NormalizedInv (normalize text) :=
  normalizedInv_normalize

/-- C7: if any of the five artifacts failed to load (is `none`), every run
of the app only shows the unavailable warning, with zero calls to the
vectorizer or any classifier. -/
theorem claim_C7 :
    ∀ (bnb svm ens : Option PyClassifier)
      (vec : Option (List Char → Except String (List ℚ))) (tl : Option Tools)
      (input_text : List Char) (btn sc sd : Bool),
      (bnb = none ∨ svm = none ∨ ens = none ∨ vec = none ∨ tl = none) →
      appMain bnb svm ens vec tl input_text btn sc sd =
        ([UIElem.warning
            "⚠️ Aplikasi tidak dapat berjalan karena file model belum lengkap."],
         Counts.zero) := by
  intro bnb svm ens vec tl input_text btn sc sd h
  rcases h with rfl | rfl | rfl | rfl | rfl
  · cases svm <;> cases ens <;> cases vec <;> cases tl <;> rfl
  · cases bnb <;> cases ens <;> cases vec <;> cases tl <;> rfl
  · cases bnb <;> cases svm <;> cases vec <;> cases tl <;> rfl
  · cases bnb <;> cases svm <;> cases ens <;> cases tl <;> rfl
  · cases bnb <;> cases svm <;> cases ens <;> cases vec <;> rfl

/-- Witness for C7: the vectorizer artifact failed to load, everything else
loaded. -/
theorem claim_C7_witness :
    ((some demoModels.model_bnb : Option PyClassifier) = none ∨
     (some demoModels.model_svm : Option PyClassifier) = none ∨
     (some demoModels.model_ensemble : Option PyClassifier) = none ∨
     (none : Option (List Char → Except String (List ℚ))) = none ∨
     (some demoModels.tools : Option Tools) = none) ∧
    appMain (some demoModels.model_bnb) (some demoModels.model_svm)
        (some demoModels.model_ensemble) none (some demoModels.tools)
        demoInput true true true =
      ([UIElem.warning
          "⚠️ Aplikasi tidak dapat berjalan karena file model belum lengkap."],
       Counts.zero) :=
  ⟨Or.inr (Or.inr (Or.inr (Or.inl rfl))),
   claim_C7 _ _ _ none _ demoInput true true true
     (Or.inr (Or.inr (Or.inr (Or.inl rfl))))⟩

/-- C1 fails on the code: in a comparison run the two base models' results
consist of a label only.  Their `predict_proba` is never invoked (count 0),
so no probability pair for them exists anywhere in the run, and the
comparison section of the rendered output contains exactly two captions and
two label-only alerts. -/
theorem claim_C1_counterexample :
    (runApp demoModels demoInput true true false).2.bnbProba = 0 ∧
    (runApp demoModels demoInput true true false).2.svmProba = 0 ∧
    (runApp demoModels demoInput true true false).1 =
      ensembleElems (.str "positive") (mkRat 3 10, mkRat 7 10) ++
        comparisonElems (.str "positive") (.str "negative") ∧
    comparisonElems (.str "positive") (.str "negative") =
      [UIElem.markdown "---",
       UIElem.markdown "#### 🤖 Perbandingan Model Individu",
       UIElem.caption "Bernoulli Naive Bayes", UIElem.success "Positif",
       UIElem.caption "Linear SVM", UIElem.error "Negatif"] :=
  ⟨by decide, by decide, rfl, by decide⟩

/-- C1 (amended): when the comparison view is requested and every call
succeeds, the ensemble model gets a full `PredictionResult` (label and
probability pair), while the two base models produce a label only: each
base `predict` runs exactly once and base `predict_proba` never runs. -/
theorem claim_C1 :
    ∀ (m : Models) (input_text : List Char) (sd : Bool) (vec : List ℚ)
      (le lb ls : PyLabel) (pr : ℚ × ℚ),
      pyStrip input_text ≠ [] →
      m.vectorizer (preprocess_text input_text m.tools.stopword m.tools.stemmer) =
        .ok vec →
      m.model_ensemble.predict vec = .ok le →
      m.model_ensemble.predict_proba vec = .ok pr →
      m.model_bnb.predict vec = .ok lb →
      m.model_svm.predict vec = .ok ls →
      runApp m input_text true true sd =
        (ensembleElems le pr ++ comparisonElems lb ls ++
          (if sd then detailElems input_text
              (preprocess_text input_text m.tools.stopword m.tools.stemmer)
            else []),
         ⟨1, 1, 1, 1, 0, 1, 0⟩) := by
  intro m input_text sd vec le lb ls pr hne hv he hp hb hs
  obtain ⟨mb, ms, me, mv, mt⟩ := m
  dsimp only at hv he hp hb hs
  unfold runApp
  rw [if_pos rfl, if_neg hne]
  simp only [runPredictBlock]
  rw [hv]
  dsimp only
  rw [he]
  dsimp only
  rw [hp]
  dsimp only
  rw [hb]
  dsimp only
  rw [hs]
  dsimp only
  cases sd with
  | false => simp
  | true => simp [List.append_assoc]

/-- Witness for C1 (amended) at the demo bundle. -/
theorem claim_C1_witness :
    pyStrip demoInput ≠ [] ∧
    demoModels.vectorizer
        (preprocess_text demoInput demoModels.tools.stopword
          demoModels.tools.stemmer) = .ok [1] ∧
    demoModels.model_ensemble.predict [1] = .ok (.str "positive") ∧
    demoModels.model_ensemble.predict_proba [1] = .ok (mkRat 3 10, mkRat 7 10) ∧
    demoModels.model_bnb.predict [1] = .ok (.str "positive") ∧
    demoModels.model_svm.predict [1] = .ok (.str "negative") ∧
    runApp demoModels demoInput true true false =
      (ensembleElems (.str "positive") (mkRat 3 10, mkRat 7 10) ++
        comparisonElems (.str "positive") (.str "negative") ++
        (if false then detailElems demoInput
            (preprocess_text demoInput demoModels.tools.stopword
              demoModels.tools.stemmer)
          else []),
       ⟨1, 1, 1, 1, 0, 1, 0⟩) :=
  ⟨by decide, rfl, rfl, rfl, rfl, rfl,
   claim_C1 demoModels demoInput false [1] (.str "positive") (.str "positive")
     (.str "negative") (mkRat 3 10, mkRat 7 10) (by decide) rfl rfl rfl rfl rfl⟩

/-- C8 fails on the code as stated: the generic error report does not
identify the offending model.  Two bundles that fail in different base
models (with the same underlying exception message) produce identical
rendered output, so no caller can tell which model raised. -/
theorem claim_C8_counterexample :
    (runApp modelsFailBnb demoInput true true false).1 =
      (runApp modelsFailSvm demoInput true true false).1 ∧
    modelsFailBnb.model_bnb.predict [1] = .error "boom" ∧
    modelsFailBnb.model_svm.predict [1] = .ok (.str "negative") ∧
    modelsFailSvm.model_bnb.predict [1] = .ok (.str "positive") ∧
    modelsFailSvm.model_svm.predict [1] = .error "boom" :=
  ⟨rfl, rfl, rfl, rfl, rfl⟩

/-- C8 (amended): whenever a classifier raises during `predict` or
`predict_proba`, the run ends with a single error element carrying the
underlying cause message (nothing is silently swallowed), no partial
result is emitted for the failed model, and the elements already rendered
for other models are retained — but the report does not identify the
offending model. -/
theorem claim_C8 :
    ∀ (m : Models) (input_text : List Char) (sc sd : Bool) (vec : List ℚ)
      (e : String),
      pyStrip input_text ≠ [] →
      m.vectorizer (preprocess_text input_text m.tools.stopword m.tools.stemmer) =
        .ok vec →
      ((m.model_ensemble.predict vec = .error e →
          runApp m input_text true sc sd =
            ([predErrorElem e], ⟨1, 1, 0, 0, 0, 0, 0⟩)) ∧
       (∀ le, m.model_ensemble.predict vec = .ok le →
          m.model_ensemble.predict_proba vec = .error e →
          runApp m input_text true sc sd =
            ([predErrorElem e], ⟨1, 1, 1, 0, 0, 0, 0⟩)) ∧
       (∀ le pr, m.model_ensemble.predict vec = .ok le →
          m.model_ensemble.predict_proba vec = .ok pr →
          m.model_bnb.predict vec = .error e →
          runApp m input_text true true sd =
            (ensembleElems le pr ++ [predErrorElem e], ⟨1, 1, 1, 1, 0, 0, 0⟩)) ∧
       (∀ le pr lb, m.model_ensemble.predict vec = .ok le →
          m.model_ensemble.predict_proba vec = .ok pr →
          m.model_bnb.predict vec = .ok lb →
          m.model_svm.predict vec = .error e →
          runApp m input_text true true sd =
            (ensembleElems le pr ++ [predErrorElem e], ⟨1, 1, 1, 1, 0, 1, 0⟩))) := by
  intro m input_text sc sd vec e hne hv
  obtain ⟨mb, ms, me, mv, mt⟩ := m
  dsimp only at hv
  refine ⟨?_, ?_, ?_, ?_⟩
  · intro hpe
    dsimp only at hpe
    unfold runApp
    rw [if_pos rfl, if_neg hne]
    simp only [runPredictBlock]
    rw [hv]
    dsimp only
    rw [hpe]
  · intro le hok hpe
    dsimp only at hok hpe
    unfold runApp
    rw [if_pos rfl, if_neg hne]
    simp only [runPredictBlock]
    rw [hv]
    dsimp only
    rw [hok]
    dsimp only
    rw [hpe]
  · intro le pr hok hpr hpe
    dsimp only at hok hpr hpe
    unfold runApp
    rw [if_pos rfl, if_neg hne]
    simp only [runPredictBlock]
    rw [hv]
    dsimp only
    rw [hok]
    dsimp only
    rw [hpr]
    dsimp only
    rw [hpe]
    simp
  · intro le pr lb hok hpr hbok hpe
    dsimp only at hok hpr hbok hpe
    unfold runApp
    rw [if_pos rfl, if_neg hne]
    simp only [runPredictBlock]
    rw [hv]
    dsimp only
    rw [hok]
    dsimp only
    rw [hpr]
    dsimp only
    rw [hbok]
    dsimp only
    rw [hpe]
    simp

/-- Witness for C8 (amended): an ensemble failure and a base-model failure
at the demo bundle. -/
theorem claim_C8_witness :
    pyStrip demoInput ≠ [] ∧
    modelsFailEns.model_ensemble.predict [1] = .error "boom" ∧
    runApp modelsFailEns demoInput true true false =
      ([predErrorElem "boom"], ⟨1, 1, 0, 0, 0, 0, 0⟩) ∧
    modelsFailBnb.model_bnb.predict [1] = .error "boom" ∧
    runApp modelsFailBnb demoInput true true false =
      (ensembleElems (.str "positive") (mkRat 3 10, mkRat 7 10) ++
        [predErrorElem "boom"], ⟨1, 1, 1, 1, 0, 0, 0⟩) :=
  ⟨by decide, rfl,
   (claim_C8 modelsFailEns demoInput true false [1] "boom" (by decide) rfl).1 rfl,
   rfl,
   (claim_C8 modelsFailBnb demoInput true false [1] "boom" (by decide) rfl).2.2.1
     (.str "positive") (mkRat 3 10, mkRat 7 10) rfl rfl rfl⟩

/-- C9: on strings that contain only (ASCII) letters and spaces, the
normalization stage is idempotent. -/
theorem claim_C9 :
    ∀ text : List Char, (∀ c ∈ text, isAsciiLetter c = true ∨ c = ' ') →
      normalize (normalize text) = normalize text :=
  fun text _ => normalize_idem text

/-- Witness for C9 at the concrete input `"ab Cd"`. -/
theorem claim_C9_witness :
    (∀ c ∈ ['a', 'b', ' ', 'C', 'd'], isAsciiLetter c = true ∨ c = ' ') ∧
    normalize (normalize ['a', 'b', ' ', 'C', 'd']) =
      normalize ['a', 'b', ' ', 'C', 'd'] :=
  ⟨by decide, claim_C9 ['a', 'b', ' ', 'C', 'd'] (by decide)⟩

/-- C10: the sentiment alert is positive exactly when the predicted label
is the string `"positive"`; every other label — a different string or a
numeric label — renders as negative sentiment, and never as the
prediction-failure error element. -/
theorem claim_C10 :
    ∀ pred : PyLabel,
      (ensembleSentimentElem pred = UIElem.success "### ✅ Sentimen: POSITIF" ↔
        pred = PyLabel.str "positive") ∧
      (pred ≠ PyLabel.str "positive" →
        ensembleSentimentElem pred = UIElem.error "### ❌ Sentimen: NEGATIF") ∧
      (∀ n : Int, ensembleSentimentElem (PyLabel.num n) =
        UIElem.error "### ❌ Sentimen: NEGATIF") ∧
      (baseSentimentElem pred = UIElem.success "Positif" ↔
        pred = PyLabel.str "positive") ∧
      (pred ≠ PyLabel.str "positive" →
        baseSentimentElem pred = UIElem.error "Negatif") ∧
      (∀ e : String, ensembleSentimentElem pred ≠ predErrorElem e ∧
        baseSentimentElem pred ≠ predErrorElem e) := by
  intro pred
  have hlbl : labelIsPositive pred = true ↔ pred = PyLabel.str "positive" := by
    cases pred with
    | str s => simp [labelIsPositive]
    | num n => simp [labelIsPositive]
  refine ⟨?_, ?_, ?_, ?_, ?_, ?_⟩
  · unfold ensembleSentimentElem
    by_cases h : labelIsPositive pred = true
    · simp [h, hlbl.mp h, labelIsPositive]
    · simp only [h, Bool.false_eq_true, if_neg]
      constructor
      · intro hcon
        exact absurd hcon (by simp)
      · intro hcon
        exact absurd (hlbl.mpr hcon) h
  · intro hne
    unfold ensembleSentimentElem
    rw [if_neg]
    intro h
    exact hne (hlbl.mp h)
  · intro n
    rfl
  · unfold baseSentimentElem
    by_cases h : labelIsPositive pred = true
    · simp [h, hlbl.mp h, labelIsPositive]
    · simp only [h, Bool.false_eq_true, if_neg]
      constructor
      · intro hcon
        exact absurd hcon (by simp)
      · intro hcon
        exact absurd (hlbl.mpr hcon) h
  · intro hne
    unfold baseSentimentElem
    rw [if_neg]
    intro h
    exact hne (hlbl.mp h)
  · intro e
    constructor
    · unfold ensembleSentimentElem predErrorElem
      by_cases h : labelIsPositive pred = true
      · rw [if_pos h]
        intro hcon
        exact UIElem.noConfusion hcon
      · rw [if_neg h]
        intro hcon
        injection hcon with hmsg
        have h1 := congrArg (fun s : String => s.data.head?) hmsg
        dsimp only at h1
        rw [predError_msg_head] at h1
        exact absurd h1 (by decide)
    · unfold baseSentimentElem predErrorElem
      by_cases h : labelIsPositive pred = true
      · rw [if_pos h]
        intro hcon
        exact UIElem.noConfusion hcon
      · rw [if_neg h]
        intro hcon
        injection hcon with hmsg
        have h1 := congrArg (fun s : String => s.data.head?) hmsg
        dsimp only at h1
        rw [predError_msg_head] at h1
        exact absurd h1 (by decide)

/-- Witness for C10 at the numeric label `1`. -/
theorem claim_C10_witness :
    (PyLabel.num 1 ≠ PyLabel.str "positive") ∧
    ensembleSentimentElem (PyLabel.num 1) =
      UIElem.error "### ❌ Sentimen: NEGATIF" :=
  ⟨by decide, (claim_C10 (PyLabel.num 1)).2.1 (by decide)⟩

end SentimentApp
